import Mathlib

/-!
Verification of the kidio-agent-service generation pipeline.

The Python sources under `src/` are shallowly embedded below:

* `src/services/llm_service.py` — `LLMService.build_prompt`, the tenacity
  retry decorator on `LLMService.generate`, response parsing into
  `LLMResult`, and `generate_structured`.
* `src/services/rag_service.py` — `RetrievedChunk` and `format_rag_context`.
* `src/core/tracking.py` — the `track_generation` context manager.
* `src/services/orchestrator.py` — `AgentOrchestrator.generate`.
* `src/transport/rest_api.py` — the `x or None` coercion of override fields.
* `src/core/config.py` — the `Settings` fields the pipeline reads.

Python floats that the code only ever renders or tests for truthiness
(temperatures, relevance scores) are embedded as exact decimal numbers
(`Decimal` below, a mantissa with a count of fractional digits), and JSON
serialisation (`orjson.dumps`) / parsing (`json.loads`, `orjson.loads`) are
embedded as an executable renderer and parser over a `JsonValue` tree.
Effects (the HTTP backend, the retriever, the MLflow tracking backend) are
embedded as explicit outcome parameters threaded through the pure control
flow translated from the source.
-/

namespace KidioAgent

/-! ## Decimal numbers

A `Decimal` stands for the decimal rendering of a Python float: the value
`mant / 10 ^ scale`, printed with exactly `scale` fractional digits. -/

/-- A decimal number `mant / 10 ^ scale`, kept in rendered form. -/
structure Decimal where
  mant : Int
  scale : Nat
deriving DecidableEq, Repr

/-- Python float truthiness: a float is falsy exactly when it is zero. -/
def Decimal.isZero (d : Decimal) : Bool := d.mant == 0

/-! ## Digit characters -/

/-- The character for decimal digit `d` (meaningful for `d < 10`). -/
def digitChar (d : Nat) : Char := Char.ofNat (48 + d)

/-- The numeric value of a digit character. -/
def charDigitVal (c : Char) : Nat := c.toNat - 48

/-- Whether `c` is one of the characters `0`–`9`. -/
def isDigitCh (c : Char) : Bool := 48 ≤ c.toNat && c.toNat ≤ 57

/-- Big-endian digit characters of `n`, zero-padded on the left so that at
least `width` characters are produced. -/
def natCharsPadded (n width : Nat) : List Char :=
  let ds := (Nat.digits 10 n).map digitChar
  (ds ++ List.replicate (width - ds.length) '0').reverse

/-- Unsigned body of a rendered decimal: the digits of `a`, with a point
inserted so that exactly `sc` fractional digits follow it when `sc > 0`. -/
def decBody (a sc : Nat) : List Char :=
  if sc = 0 then natCharsPadded a 1
  else
    let all := natCharsPadded a (sc + 1)
    let k := all.length - sc
    all.take k ++ '.' :: all.drop k

/-- Characters of a `Decimal`: optional minus sign, integer digits, and for
positive `scale` a point followed by exactly `scale` fractional digits. -/
def renderDecimal (d : Decimal) : List Char :=
  (if d.mant < 0 then ['-'] else []) ++ decBody d.mant.natAbs d.scale

/-! ## JSON values

`JsonValue` embeds the values `json.loads` / `orjson.loads` produce and
`orjson.dumps` consumes: the Python side uses dicts, lists, strings, numbers,
booleans and `None`. -/

/-- A JSON value; numbers are carried as `Decimal`. -/
inductive JsonValue where
  | null
  | bool (b : Bool)
  | num (d : Decimal)
  | str (s : String)
  | arr (items : List JsonValue)
  | obj (members : List (String × JsonValue))

/-- Whether a value is a JSON object — a Python mapping after `json.loads`. -/
def JsonValue.isMapping : JsonValue → Bool
  | .obj _ => true
  | _ => false

/-! ## JSON rendering (`orjson.dumps`, compact form) -/

/-- JSON string escaping for one character. -/
def escChar (c : Char) : List Char :=
  if c = '"' then ['\\', '"']
  else if c = '\\' then ['\\', '\\']
  else [c]

/-- Characters of a rendered JSON string literal, quotes included. -/
def renderStringL (s : String) : List Char :=
  '"' :: (s.data.flatMap escChar ++ ['"'])

mutual
/-- Characters of a rendered JSON value (compact, no added whitespace). -/
def renderJsonL : JsonValue → List Char
  | .null => "null".data
  | .bool true => "true".data
  | .bool false => "false".data
  | .num d => renderDecimal d
  | .str s => renderStringL s
  | .arr items => '[' :: (renderItemsL items ++ [']'])
  | .obj members => '\x7b' :: (renderFieldsL members ++ ['\x7d'])

/-- Comma-separated rendered array elements. -/
def renderItemsL : List JsonValue → List Char
  | [] => []
  | [v] => renderJsonL v
  | v :: vs => renderJsonL v ++ ',' :: renderItemsL vs

/-- Comma-separated rendered `key:value` object members. -/
def renderFieldsL : List (String × JsonValue) → List Char
  | [] => []
  | (k, v) :: ms => renderStringL k ++ ':' :: (renderJsonL v ++ renderFieldsTailL ms)

/-- Members after the first, each preceded by a comma. -/
def renderFieldsTailL : List (String × JsonValue) → List Char
  | [] => []
  | (k, v) :: ms => ',' :: (renderStringL k ++ ':' :: (renderJsonL v ++ renderFieldsTailL ms))
end

/-- Rendered JSON document as a string (`orjson.dumps(...).decode()`). -/
def renderJson (v : JsonValue) : String := String.mk (renderJsonL v)

/-! ## JSON parsing (`json.loads` / `orjson.loads`) -/

/-- JSON insignificant whitespace. -/
def isWsChar (c : Char) : Bool := c == ' ' || c == '\n' || c == '\t' || c == '\r'

/-- Drop leading whitespace. -/
def skipWs : List Char → List Char
  | [] => []
  | c :: cs => if isWsChar c then skipWs cs else c :: cs

/-- Longest leading run of digit characters, and the remainder. -/
def takeDigitRun : List Char → List Char × List Char
  | [] => ([], [])
  | c :: cs =>
    if isDigitCh c then
      let (ds, r) := takeDigitRun cs
      (c :: ds, r)
    else ([], c :: cs)

/-- Value of a big-endian run of digit characters. -/
def digitRunVal (ds : List Char) : Nat :=
  ds.foldl (fun a c => 10 * a + charDigitVal c) 0

/-- Signed value of a digit run. -/
def sgn (neg : Bool) (n : Nat) : Int := if neg then -(n : Int) else (n : Int)

/-- Parse the part of a JSON number after the optional minus sign. -/
def parseUnsigned (neg : Bool) (cs : List Char) : Option (Decimal × List Char) :=
  let (ints, cs2) := takeDigitRun cs
  if ints.isEmpty then none
  else
    match cs2 with
    | [] => some (⟨sgn neg (digitRunVal ints), 0⟩, [])
    | c :: r =>
      if c = '.' then
        let (fracs, cs3) := takeDigitRun r
        if fracs.isEmpty then none
        else some (⟨sgn neg (digitRunVal (ints ++ fracs)), fracs.length⟩, cs3)
      else some (⟨sgn neg (digitRunVal ints), 0⟩, c :: r)

/-- Parse a JSON number (optional sign, digits, optional point and digits). -/
def parseNumber (cs : List Char) : Option (Decimal × List Char) :=
  match cs with
  | [] => none
  | c :: r => if c = '-' then parseUnsigned true r else parseUnsigned false (c :: r)

/-- Inverse of `escChar` on the character after a backslash. -/
def unescCh (c : Char) : Option Char :=
  if c = '"' then some '"'
  else if c = '\\' then some '\\'
  else if c = '/' then some '/'
  else if c = 'n' then some '\n'
  else if c = 't' then some '\t'
  else if c = 'r' then some '\r'
  else none

/-- Scan a JSON string body after the opening quote, undoing escapes. -/
def scanString : List Char → Option (List Char × List Char)
  | [] => none
  | '\\' :: e :: rest2 =>
    match unescCh e with
    | none => none
    | some u =>
      match scanString rest2 with
      | none => none
      | some (s, r) => some (u :: s, r)
  | c :: rest =>
    if c = '"' then some ([], rest)
    else if c = '\\' then none
    else
      match scanString rest with
      | none => none
      | some (s, r) => some (c :: s, r)

mutual
/-- Parse one JSON value; `fuel` bounds the recursion and strictly exceeds
the input length at the top-level call. -/
def parseVal : Nat → List Char → Option (JsonValue × List Char)
  | 0, _ => none
  | fuel + 1, input =>
    match skipWs input with
    | [] => none
    | c :: r =>
      if c = 'n' then
        match r with
        | 'u' :: 'l' :: 'l' :: r2 => some (.null, r2)
        | _ => none
      else if c = 't' then
        match r with
        | 'r' :: 'u' :: 'e' :: r2 => some (.bool true, r2)
        | _ => none
      else if c = 'f' then
        match r with
        | 'a' :: 'l' :: 's' :: 'e' :: r2 => some (.bool false, r2)
        | _ => none
      else if c = '"' then
        match scanString r with
        | some (cs, r2) => some (.str (String.mk cs), r2)
        | none => none
      else if c = '[' then
        match skipWs r with
        | ']' :: r2 => some (.arr [], r2)
        | r1 =>
          match parseItems fuel r1 with
          | some (vs, r2) => some (.arr vs, r2)
          | none => none
      else if c = '\x7b' then
        match skipWs r with
        | '\x7d' :: r2 => some (.obj [], r2)
        | r1 =>
          match parseFields fuel r1 with
          | some (ms, r2) => some (.obj ms, r2)
          | none => none
      else
        match parseNumber (c :: r) with
        | some (d, r2) => some (.num d, r2)
        | none => none

/-- Parse one-or-more comma-separated array elements up to `]`. -/
def parseItems : Nat → List Char → Option (List JsonValue × List Char)
  | 0, _ => none
  | fuel + 1, input =>
    match parseVal fuel input with
    | none => none
    | some (v, r) =>
      match skipWs r with
      | ',' :: r2 =>
        match parseItems fuel r2 with
        | some (vs, r3) => some (v :: vs, r3)
        | none => none
      | ']' :: r2 => some ([v], r2)
      | _ => none

/-- Parse one-or-more comma-separated object members up to the closing brace. -/
def parseFields : Nat → List Char → Option (List (String × JsonValue) × List Char)
  | 0, _ => none
  | fuel + 1, input =>
    match skipWs input with
    | '"' :: r =>
      match scanString r with
      | none => none
      | some (k, r1) =>
        match skipWs r1 with
        | ':' :: r2 =>
          match parseVal fuel r2 with
          | none => none
          | some (v, r3) =>
            match skipWs r3 with
            | ',' :: r4 =>
              match parseFields fuel r4 with
              | some (ms, r5) => some ((String.mk k, v) :: ms, r5)
              | none => none
            | '\x7d' :: r4 => some ([(String.mk k, v)], r4)
            | _ => none
        | _ => none
    | _ => none
end

/-- Parse a complete JSON document; trailing non-whitespace is rejected,
mirroring `json.loads`. -/
def jsonParse (s : String) : Option JsonValue :=
  match parseVal (s.length + 1) s.data with
  | some (v, r) => if skipWs r = [] then some v else none
  | none => none


/-! ## Settings (`src/core/config.py`)

Only the fields the pipeline reads; defaults follow `Settings`. -/

/-- Application settings (`core/config.py`), with the source defaults. -/
structure Settings where
  ollama_model : String := "qwen2.5:7b-instruct"
  default_temperature : Decimal := ⟨7, 1⟩
  default_max_tokens : Nat := 2048
  llm_timeout_seconds : Nat := 120
  llm_max_retries : Nat := 3
  rag_enabled : Bool := false
  rag_top_k : Nat := 5

/-! ## LLM client (`src/services/llm_service.py`) -/

/-- Fields of the Ollama generate response body; `none` is an absent key. -/
structure OllamaResponse where
  response : Option String := none
  model : Option String := none
  total_duration : Option Nat := none
  prompt_eval_count : Option Nat := none
  eval_count : Option Nat := none
deriving DecidableEq

/-- The `LLMResult` dataclass. -/
structure LLMResult where
  text : String
  model : String
  total_duration_ns : Nat
  prompt_eval_count : Nat
  eval_count : Nat
  raw : OllamaResponse
deriving DecidableEq

/-- Construction of `LLMResult` from the parsed response dict
(`llm_service.py` lines 169–176): each field via `data.get(key, default)`,
where the default for `model` is the resolved request model `_model`. -/
def parseLLMResult (data : OllamaResponse) (requestModel : String) : LLMResult :=
  { text := data.response.getD ""
    model := data.model.getD requestModel
    total_duration_ns := data.total_duration.getD 0
    prompt_eval_count := data.prompt_eval_count.getD 0
    eval_count := data.eval_count.getD 0
    raw := data }

/-- Errors a single `generate` attempt can raise: `httpx.HTTPStatusError`
(from `raise_for_status`), `httpx.ConnectError`, `orjson.JSONDecodeError`,
and the `RuntimeError` guard for a client used before `startup`. -/
inductive LLMError where
  | httpStatusError (status : Nat)
  | connectError
  | jsonDecodeError
  | notInitialized
deriving DecidableEq

/-- The tenacity retry predicate on `LLMService.generate`:
`retry_if_exception_type((httpx.HTTPStatusError, httpx.ConnectError))`. -/
def isRetryableError : LLMError → Bool
  | .httpStatusError _ => true
  | .connectError => true
  | _ => false

/-- What the HTTP backend does on one attempt: refuse the connection, or
answer with a status code and a body (`none` = unparseable JSON). -/
inductive BackendResponse where
  | connectFailure
  | httpResponse (status : Nat) (body : Option OllamaResponse)

/-- One attempt of the decorated `generate` body: POST, `raise_for_status`
(raises `HTTPStatusError` for every non-2xx status), `orjson.loads`, then
`LLMResult` construction. -/
def generateAttempt (requestModel : String) (resp : BackendResponse) :
    Except LLMError LLMResult :=
  match resp with
  | .connectFailure => .error .connectError
  | .httpResponse status body =>
    if 200 ≤ status ∧ status ≤ 299 then
      match body with
      | none => .error .jsonDecodeError
      | some data => .ok (parseLLMResult data requestModel)
    else .error (.httpStatusError status)

/-- The tenacity wait policy `wait_exponential(multiplier=1, min=1, max=10)`:
after attempt `n` the wait is `max 1 (min (2 ^ (n - 1)) 10)` seconds. -/
def backoffWait (attemptNumber : Nat) : Nat :=
  max 1 (min (2 ^ (attemptNumber - 1)) 10)

/-- Observable trace of the retry loop: final outcome, number of attempts
made, and the backoff waits slept between attempts. -/
structure RetryTrace where
  result : Except LLMError LLMResult
  attempts : Nat
  waits : List Nat

/-- The tenacity loop with `reraise=True`: return on success; re-raise at
once on a non-retryable error; on a retryable error, retry after the
backoff wait while retries remain, else re-raise the last error. -/
def retryLoop (call : Nat → Except LLMError LLMResult) :
    Nat → Nat → RetryTrace
  | n, 0 =>
    match call n with
    | .ok r => ⟨.ok r, 1, []⟩
    | .error e => ⟨.error e, 1, []⟩
  | n, retriesLeft + 1 =>
    match call n with
    | .ok r => ⟨.ok r, 1, []⟩
    | .error e =>
      if isRetryableError e then
        let t := retryLoop call (n + 1) retriesLeft
        ⟨t.result, t.attempts + 1, backoffWait n :: t.waits⟩
      else ⟨.error e, 1, []⟩

/-- Python `model or self._settings.ollama_model`: `None` and `""` are falsy. -/
def resolveModelName (override : Option String) (s : Settings) : String :=
  match override with
  | some m => if m = "" then s.ollama_model else m
  | none => s.ollama_model

/-- The method `LLMService.generate` under the tenacity decorator
(`stop_after_attempt(3)` is hard-coded in the decorator): the
uninitialized-client guard runs inside the first attempt and is not
retryable; otherwise up to 3 total attempts against the backend. -/
def llmGenerate (s : Settings) (clientStarted : Bool) (modelOverride : Option String)
    (backend : Nat → BackendResponse) : RetryTrace :=
  if clientStarted then
    retryLoop (fun n => generateAttempt (resolveModelName modelOverride s) (backend n)) 1 2
  else ⟨.error .notInitialized, 1, []⟩

/-! ## Prompt assembly (`LLMService.build_prompt`) -/

/-- The static method `build_prompt`: appends the `[System]`, `[Context]`, RAG and `[User]`
sections to a list exactly as the Python loop does, then joins. -/
def build_prompt (system_prompt context_json rag_context user_message : String) : String :=
  let parts : List String := []
  let parts := if system_prompt ≠ "" then parts ++ ["[System]\n" ++ system_prompt] else parts
  let parts := if context_json ≠ "" then parts ++ ["[Context]\n" ++ context_json] else parts
  let parts := if rag_context ≠ "" then parts ++ [rag_context] else parts
  let parts := parts ++ ["[User]\n" ++ user_message]
  String.intercalate "\n\n" parts

/-- The spec reading of §4.1: the four candidate sections in fixed order,
each present exactly when its source string is non-empty, the user section
always. -/
def promptSectionsSpec (system_prompt context_json rag_context user_message : String) :
    List String :=
  (if system_prompt = "" then [] else ["[System]\n" ++ system_prompt])
    ++ (if context_json = "" then [] else ["[Context]\n" ++ context_json])
    ++ (if rag_context = "" then [] else [rag_context])
    ++ ["[User]\n" ++ user_message]

/-! ## Retrieval and RAG formatting (`src/services/rag_service.py`) -/

/-- The `RetrievedChunk` dataclass; the score is a float, embedded as
`Decimal`. -/
structure RetrievedChunk where
  content : String
  source : String := ""
  score : Decimal := ⟨0, 0⟩
  metadata : List (String × String) := []

/-- Round `a / b` to the nearest integer, ties to even (`b > 0`). -/
def roundHalfEven (a b : Nat) : Nat :=
  let q := a / b
  let r := a % b
  if b < 2 * r then q + 1
  else if 2 * r < b then q
  else if 2 * r = b then (if q % 2 = 0 then q else q + 1)
  else q

/-- The value `|d| * 1000`, rounded half-to-even when the decimal has more than three
fractional digits. -/
def scaleTo3 (d : Decimal) : Nat :=
  if d.scale ≤ 3 then d.mant.natAbs * 10 ^ (3 - d.scale)
  else roundHalfEven d.mant.natAbs (10 ^ (d.scale - 3))

/-- The last three decimal digits of `n`, as three characters. -/
def pad3 (n : Nat) : List Char :=
  [digitChar (n / 100 % 10), digitChar (n / 10 % 10), digitChar (n % 10)]

/-- The Python fixed-point format with three decimals applied to a score:
sign, integer part, point, and exactly three fractional digits. -/
def formatFixed3 (d : Decimal) : String :=
  let n := scaleTo3 d
  (if d.mant < 0 then "-" else "") ++ toString (n / 1000) ++ "." ++ String.mk (pad3 (n % 1000))

/-- The line rendered for one chunk: the bracketed 1-based index, the
source and the three-decimal score in parentheses, a newline, and the
chunk content — the f-string of `format_rag_context`. -/
def chunkLine (idx : Nat) (c : RetrievedChunk) : String :=
  "[" ++ toString idx ++ "] (source=" ++ c.source ++ ", score="
    ++ formatFixed3 c.score ++ ")" ++ "\n" ++ c.content

/-- The loop `for idx, chunk in enumerate(chunks, 1)`: one line per chunk,
indices counting up from `idx`. -/
def chunkLines (idx : Nat) : List RetrievedChunk → List String
  | [] => []
  | c :: cs => chunkLine idx c :: chunkLines (idx + 1) cs

/-- The function `format_rag_context`: empty for no chunks, otherwise header, one block
per chunk in order, and footer, joined by blank lines. -/
def format_rag_context (chunks : List RetrievedChunk) : String :=
  if chunks.isEmpty then ""
  else
    String.intercalate "\n\n"
      ("### Retrieved Context ###" :: (chunkLines 1 chunks ++ ["### End Context ###"]))

/-! ## MLflow tracking (`src/core/tracking.py`) -/

/-- Python `str(exc)` for the embedded error kinds; every kind renders to a
non-empty message, as the corresponding Python exceptions do. -/
def llmErrorText : LLMError → String
  | .httpStatusError status => "HTTP status error " ++ toString status
  | .connectError => "connection error"
  | .jsonDecodeError => "JSON decode error"
  | .notInitialized => "LLMService not started — call startup() first"

/-- One record as shipped by the `finally` block of `track_generation`. -/
structure TelemetryRecord where
  model_name : String
  temperature : Decimal
  max_tokens : Nat
  user_message : String
  system_prompt : String
  full_prompt : String
  output : String
  output_length : Nat
  error : Option String
  status : String

/-- The body wrapped by `track_generation`, summarised by its effect on the
shared result bag: the value of `result["output"]` when the body exits
(initially `""`), and the error it raised, if any. -/
structure TrackBody where
  output : String
  failure : Option LLMError

/-- What one use of `track_generation` yields: the re-raised error (if the
body failed), the single record the `finally` block builds and attempts to
persist, and the records actually accepted by the tracking backend. -/
structure TrackOutcome where
  reraised : Option LLMError
  emitted : TelemetryRecord
  persisted : List TelemetryRecord

/-- The context manager `track_generation`: the except-arm stores `str(exc)` in the bag and
re-raises; the `finally` arm always builds one record from the bag — the
status tag follows the truthiness of `result["error"]` — and attempts to
persist it, discarding any persistence failure (`persistOk = false`). -/
def track_generation (model_name : String) (temperature : Decimal) (max_tokens : Nat)
    (user_message system_prompt full_prompt : String)
    (body : TrackBody) (persistOk : Bool) : TrackOutcome :=
  let bagOutput := body.output
  let bagError : Option String := body.failure.map llmErrorText
  let errorTruthy : Bool :=
    match bagError with
    | some msg => !(msg == "")
    | none => false
  let record : TelemetryRecord :=
    { model_name := model_name
      temperature := temperature
      max_tokens := max_tokens
      user_message := user_message
      system_prompt := system_prompt
      full_prompt := full_prompt
      output := bagOutput
      output_length := bagOutput.length
      error := if errorTruthy then bagError else none
      status := if errorTruthy then "error" else "success" }
  { reraised := body.failure
    emitted := record
    persisted := if persistOk then [record] else [] }

/-! ## Orchestrator (`src/services/orchestrator.py`) -/

/-- Python `temperature if temperature is not None else default`. -/
def resolveTemperature (override : Option Decimal) (s : Settings) : Decimal :=
  match override with
  | some t => t
  | none => s.default_temperature

/-- Python `max_tokens or self._settings.default_max_tokens`: `None` and `0` are
falsy. -/
def resolveMaxTokens (override : Option Nat) (s : Settings) : Nat :=
  match override with
  | some k => if k = 0 then s.default_max_tokens else k
  | none => s.default_max_tokens

/-- Keyword arguments of `AgentOrchestrator.generate`. -/
structure OrchRequest where
  user_message : String
  system_prompt : String := ""
  context_json : String := ""
  model_name : Option String := none
  temperature : Option Decimal := none
  max_tokens : Option Nat := none

/-- Outcomes of the two effectful collaborators during one orchestrator
call, plus whether MLflow accepts the telemetry record. -/
structure OrchEnv where
  retrieval : Except String (List RetrievedChunk)
  llm : Except LLMError LLMResult
  persistOk : Bool

/-- An error propagating out of `AgentOrchestrator.generate`. -/
inductive OrchError where
  | retrievalFailure (msg : String)
  | llmFailure (e : LLMError)

/-- The dict returned by `AgentOrchestrator.generate`: exactly the keys
`text`, `metadata` and `metadata_json`. -/
structure OrchResponse where
  text : String
  metadata : List (String × JsonValue)
  metadata_json : String

/-- One orchestrator call, with its telemetry. -/
structure OrchOutcome where
  result : Except OrchError OrchResponse
  emittedRecords : List TelemetryRecord
  persistedRecords : List TelemetryRecord

/-- The metadata dict literal of `orchestrator.py` lines 119–127, in source
order. -/
def metadataFields (model : String) (temperature : Decimal)
    (max_tokens eval_count prompt_eval_count total_duration_ns rag_chunks_used : Nat) :
    List (String × JsonValue) :=
  [("model", .str model),
   ("temperature", .num temperature),
   ("max_tokens", .num ⟨max_tokens, 0⟩),
   ("eval_count", .num ⟨eval_count, 0⟩),
   ("prompt_eval_count", .num ⟨prompt_eval_count, 0⟩),
   ("total_duration_ns", .num ⟨total_duration_ns, 0⟩),
   ("rag_chunks_used", .num ⟨rag_chunks_used, 0⟩)]

/-- The method `AgentOrchestrator.generate`: resolve overrides, retrieve (before any
telemetry scope is opened), format the RAG block, build the prompt, run the
LLM call inside `track_generation`, then assemble the response with
`orjson.dumps(metadata)`. A retrieval failure propagates before
`track_generation` is entered; an LLM failure re-raises out of the scope
after the record is emitted. -/
def agentGenerate (s : Settings) (req : OrchRequest) (env : OrchEnv) : OrchOutcome :=
  let model := resolveModelName req.model_name s
  let temperature := resolveTemperature req.temperature s
  let max_tokens := resolveMaxTokens req.max_tokens s
  match env.retrieval with
  | .error msg =>
    { result := .error (.retrievalFailure msg), emittedRecords := [], persistedRecords := [] }
  | .ok chunks =>
    let rag_context := format_rag_context chunks
    let full_prompt :=
      build_prompt req.system_prompt req.context_json rag_context req.user_message
    let body : TrackBody :=
      match env.llm with
      | .ok r => { output := r.text, failure := none }
      | .error e => { output := "", failure := some e }
    let tracked := track_generation model temperature max_tokens
      req.user_message req.system_prompt full_prompt body env.persistOk
    match env.llm with
    | .error e =>
      { result := .error (.llmFailure e)
        emittedRecords := [tracked.emitted]
        persistedRecords := tracked.persisted }
    | .ok r =>
      let metadata := metadataFields r.model temperature max_tokens
        r.eval_count r.prompt_eval_count r.total_duration_ns chunks.length
      { result := .ok
          { text := r.text
            metadata := metadata
            metadata_json := renderJson (.obj metadata) }
        emittedRecords := [tracked.emitted]
        persistedRecords := tracked.persisted }

/-! ## REST transport (`src/transport/rest_api.py`) -/

/-- The `AgentSettingsModel` pydantic model with its defaults. -/
structure AgentSettingsModel where
  model_name : String := ""
  temperature : Decimal := ⟨0, 0⟩
  max_tokens : Nat := 0

/-- The `GenerateRequest` payload of `POST /generate`. -/
structure RestGenerateRequest where
  user_message : String
  system_prompt : String := ""
  context_json : String := ""
  agent_settings : AgentSettingsModel := {}

/-- Python `x or None` on a string: `""` becomes `None`. -/
def orNoneStr (x : String) : Option String :=
  if x = "" then none else some x

/-- Python `x or None` on a float: `0.0` becomes `None`. -/
def orNoneDec (x : Decimal) : Option Decimal :=
  if x.isZero then none else some x

/-- Python `x or None` on an integer: `0` becomes `None`. -/
def orNoneNat (x : Nat) : Option Nat :=
  if x = 0 then none else some x

/-- The argument coercion at `rest_api.py` lines 101–108 (the gRPC servicer
performs the identical coercion). -/
def restToOrchRequest (b : RestGenerateRequest) : OrchRequest :=
  { user_message := b.user_message
    system_prompt := b.system_prompt
    context_json := b.context_json
    model_name := orNoneStr b.agent_settings.model_name
    temperature := orNoneDec b.agent_settings.temperature
    max_tokens := orNoneNat b.agent_settings.max_tokens }

/-! ## Structured output (`LLMService.generate_structured`) -/

/-- The body of `generate_structured` after the inner `generate` returned
text: `json.loads(text)` returned as-is on success, and the
`{"text": raw}` fallback when parsing raises. -/
def generate_structured_of (text : String) : JsonValue :=
  match jsonParse text with
  | some v => v
  | none => .obj [("text", .str text)]

/-! # Theorems -/

/-! ## Digit-run inversion lemmas -/

theorem digit_char_facts :
    ∀ d, d < 10 → isDigitCh (digitChar d) = true ∧ charDigitVal (digitChar d) = d := by
  decide

theorem digit_not_ws {c : Char} (h : isDigitCh c = true) : isWsChar c = false := by
  have h1 : c ≠ ' ' := by rintro rfl; simp [isDigitCh] at h
  have h2 : c ≠ '\n' := by rintro rfl; simp [isDigitCh] at h
  have h3 : c ≠ '\t' := by rintro rfl; simp [isDigitCh] at h
  have h4 : c ≠ '\r' := by rintro rfl; simp [isDigitCh] at h
  simp [isWsChar, h1, h2, h3, h4]

theorem skipWs_not_ws {c : Char} (cs : List Char) (h : isWsChar c = false) :
    skipWs (c :: cs) = c :: cs := by
  simp [skipWs, h]

theorem foldl_digit_rev (l : List Nat) (hl : ∀ d ∈ l, d < 10) (a : Nat) :
    List.foldl (fun x c => 10 * x + charDigitVal c) a ((l.map digitChar).reverse)
      = a * 10 ^ l.length + Nat.ofDigits 10 l := by
  induction l generalizing a with
  | nil => simp
  | cons d t ih =>
    have hd : charDigitVal (digitChar d) = d := (digit_char_facts d (hl d (by simp))).2
    rw [List.map_cons, List.reverse_cons, List.foldl_append,
      ih (fun x hx => hl x (List.mem_cons_of_mem _ hx))]
    simp only [List.foldl_cons, List.foldl_nil, hd, Nat.ofDigits_cons, List.length_cons]
    ring

theorem natCharsPadded_eq (n w : Nat) :
    natCharsPadded n w
      = List.replicate (w - ((Nat.digits 10 n).map digitChar).length) '0'
          ++ ((Nat.digits 10 n).map digitChar).reverse := by
  simp [natCharsPadded, List.reverse_append]

theorem digitRunVal_natCharsPadded (n w : Nat) : digitRunVal (natCharsPadded n w) = n := by
  rw [digitRunVal, natCharsPadded_eq, List.foldl_append]
  have hz : ∀ (k : Nat),
      List.foldl (fun x c => 10 * x + charDigitVal c) 0 (List.replicate k '0') = 0 := by
    intro k
    induction k with
    | zero => rfl
    | succ k ih => simpa [List.replicate_succ, charDigitVal] using ih
  rw [hz, foldl_digit_rev _ (fun d hd => Nat.digits_lt_base (by norm_num) hd)]
  simp [Nat.ofDigits_digits]

theorem natCharsPadded_all_digits (n w : Nat) :
    ∀ c ∈ natCharsPadded n w, isDigitCh c = true := by
  intro c hc
  rw [natCharsPadded_eq, List.mem_append] at hc
  rcases hc with hc | hc
  · rw [List.eq_of_mem_replicate hc]; decide
  · rw [List.mem_reverse, List.mem_map] at hc
    obtain ⟨d, hd, rfl⟩ := hc
    exact (digit_char_facts d (Nat.digits_lt_base (by norm_num) hd)).1

theorem natCharsPadded_length (n w : Nat) :
    (natCharsPadded n w).length = max ((Nat.digits 10 n).length) w := by
  simp [natCharsPadded]
  omega

/-! ## Digit-run parsing lemmas -/

/-- A remainder that cannot extend a digit run or grow a fraction: empty, or
headed by a character that is neither a digit nor a point. -/
def numBreak : List Char → Bool
  | [] => true
  | c :: _ => !isDigitCh c && !(c == '.')

theorem takeDigitRun_stop {cs : List Char} (h : numBreak cs = true) :
    takeDigitRun cs = ([], cs) := by
  match cs with
  | [] => rfl
  | c :: t =>
    simp only [numBreak, Bool.and_eq_true, Bool.not_eq_true'] at h
    simp [takeDigitRun, h.1]

theorem takeDigitRun_not_digit {c : Char} (t : List Char) (h : isDigitCh c = false) :
    takeDigitRun (c :: t) = ([], c :: t) := by
  simp [takeDigitRun, h]

theorem takeDigitRun_append (ds rest : List Char)
    (hds : ∀ c ∈ ds, isDigitCh c = true) (hrest : takeDigitRun rest = ([], rest)) :
    takeDigitRun (ds ++ rest) = (ds, rest) := by
  induction ds with
  | nil => simpa using hrest
  | cons c t ih =>
    have hc : isDigitCh c = true := hds c (by simp)
    have ht := ih (fun x hx => hds x (by simp [hx]))
    simp [takeDigitRun, hc, ht]

/-! ## Number round-trip -/

theorem natCharsPadded_ne_nil (n w : Nat) (hw : 1 ≤ w) : natCharsPadded n w ≠ [] := by
  have h := natCharsPadded_length n w
  intro hnil
  rw [hnil] at h
  simp at h
  omega

theorem parseUnsigned_int_shape (neg : Bool) (B rest : List Char) (hB : B ≠ [])
    (hdig : ∀ c ∈ B, isDigitCh c = true) (hrest : numBreak rest = true) :
    parseUnsigned neg (B ++ rest) = some (⟨sgn neg (digitRunVal B), 0⟩, rest) := by
  unfold parseUnsigned
  rw [takeDigitRun_append B rest hdig (takeDigitRun_stop hrest)]
  have hBe : B.isEmpty = false := by
    cases B with
    | nil => exact absurd rfl hB
    | cons c t => rfl
  simp only [hBe, Bool.false_eq_true, if_false]
  match rest, hrest with
  | [], _ => rfl
  | c :: t, hrest =>
    simp only [numBreak, Bool.and_eq_true, Bool.not_eq_true', beq_eq_false_iff_ne,
      ne_eq] at hrest
    simp [hrest.2]

theorem parseUnsigned_frac_shape (neg : Bool) (I F rest : List Char)
    (hI : I ≠ []) (hIdig : ∀ c ∈ I, isDigitCh c = true)
    (hF : F ≠ []) (hFdig : ∀ c ∈ F, isDigitCh c = true)
    (hrest : numBreak rest = true) :
    parseUnsigned neg (I ++ '.' :: (F ++ rest))
      = some (⟨sgn neg (digitRunVal (I ++ F)), F.length⟩, rest) := by
  unfold parseUnsigned
  rw [takeDigitRun_append I ('.' :: (F ++ rest)) hIdig (takeDigitRun_not_digit _ (by decide))]
  have hIe : I.isEmpty = false := by
    cases I with
    | nil => exact absurd rfl hI
    | cons c t => rfl
  simp only [hIe, Bool.false_eq_true, if_false]
  rw [takeDigitRun_append F rest hFdig (takeDigitRun_stop hrest)]
  have hFe : F.isEmpty = false := by
    cases F with
    | nil => exact absurd rfl hF
    | cons c t => rfl
  simp [hFe]

theorem decBody_parse (neg : Bool) (a sc : Nat) (rest : List Char)
    (hrest : numBreak rest = true) :
    parseUnsigned neg (decBody a sc ++ rest) = some (⟨sgn neg a, sc⟩, rest) := by
  by_cases hsc : sc = 0
  · subst hsc
    unfold decBody
    rw [if_pos rfl,
      parseUnsigned_int_shape neg _ rest (natCharsPadded_ne_nil a 1 (by omega))
        (natCharsPadded_all_digits a 1) hrest,
      digitRunVal_natCharsPadded]
  · obtain ⟨s, rfl⟩ : ∃ s, sc = s + 1 := ⟨sc - 1, by omega⟩
    have hlen : s + 2 ≤ (natCharsPadded a (s + 2)).length := by
      rw [natCharsPadded_length]; omega
    have hk1 : 1 ≤ (natCharsPadded a (s + 2)).length - (s + 1) := by omega
    have hbody : decBody a (s + 1) ++ rest
        = (natCharsPadded a (s + 2)).take ((natCharsPadded a (s + 2)).length - (s + 1))
          ++ '.' :: ((natCharsPadded a (s + 2)).drop
              ((natCharsPadded a (s + 2)).length - (s + 1)) ++ rest) := by
      simp [decBody]
    rw [hbody,
      parseUnsigned_frac_shape neg _ _ rest
        (by
          intro hnil
          have := congrArg List.length hnil
          simp at this
          omega)
        (fun c hc => natCharsPadded_all_digits a (s + 2) c (List.take_subset _ _ hc))
        (by
          intro hnil
          have := congrArg List.length hnil
          simp at this
          omega)
        (fun c hc => natCharsPadded_all_digits a (s + 2) c (List.drop_subset _ _ hc))
        hrest,
      List.take_append_drop, digitRunVal_natCharsPadded]
    congr 2
    simp
    omega

theorem decBody_head (a sc : Nat) :
    ∃ c t, decBody a sc = c :: t ∧ isDigitCh c = true := by
  by_cases hsc : sc = 0
  · subst hsc
    match h : decBody a 0 with
    | [] =>
      exact absurd (by simpa [decBody] using h) (natCharsPadded_ne_nil a 1 (by omega))
    | c :: t =>
      refine ⟨c, t, rfl, ?_⟩
      apply natCharsPadded_all_digits a 1
      have : c ∈ decBody a 0 := by rw [h]; simp
      simpa [decBody] using this
  · obtain ⟨s, rfl⟩ : ∃ s, sc = s + 1 := ⟨sc - 1, by omega⟩
    have hlen : s + 2 ≤ (natCharsPadded a (s + 2)).length := by
      rw [natCharsPadded_length]; omega
    match h : (natCharsPadded a (s + 2)).take ((natCharsPadded a (s + 2)).length - (s + 1)) with
    | [] =>
      have := congrArg List.length h
      simp at this
      omega
    | c :: t =>
      refine ⟨c, t ++ '.' :: (natCharsPadded a (s + 2)).drop
        ((natCharsPadded a (s + 2)).length - (s + 1)), ?_, ?_⟩
      · simp only [decBody, hsc, if_false]
        rw [h]
        simp
      · exact natCharsPadded_all_digits a (s + 2) c
          (List.take_subset _ _ (by rw [h]; simp))

theorem parseNumber_render (d : Decimal) (rest : List Char) (hrest : numBreak rest = true) :
    parseNumber (renderDecimal d ++ rest) = some (d, rest) := by
  obtain ⟨m, sc⟩ := d
  by_cases hm : m < 0
  · have hr : renderDecimal ⟨m, sc⟩ ++ rest = '-' :: (decBody m.natAbs sc ++ rest) := by
      simp [renderDecimal, hm]
    rw [hr]
    simp only [parseNumber, if_true]
    rw [decBody_parse true m.natAbs sc rest hrest]
    have hs : sgn true m.natAbs = m := by
      show -((m.natAbs : Int)) = m
      omega
    rw [hs]
  · obtain ⟨c, t, hct, hcd⟩ := decBody_head m.natAbs sc
    have hr : renderDecimal ⟨m, sc⟩ ++ rest = c :: (t ++ rest) := by
      simp [renderDecimal, hm, hct]
    rw [hr]
    simp only [parseNumber]
    have hcm : ¬(c = '-') := by rintro rfl; exact absurd hcd (by decide)
    rw [if_neg hcm]
    have : c :: (t ++ rest) = decBody m.natAbs sc ++ rest := by rw [hct]; rfl
    rw [this, decBody_parse false m.natAbs sc rest hrest]
    have hs : sgn false m.natAbs = m := by
      show ((m.natAbs : Int)) = m
      omega
    rw [hs]

/-! ## String round-trip -/

theorem scanString_pass {c : Char} (rest : List Char) (h1 : ¬c = '"') (h2 : ¬c = '\\') :
    scanString (c :: rest)
      = match scanString rest with
        | none => none
        | some (s, r) => some (c :: s, r) := by
  rw [scanString.eq_def]
  split
  · rename_i heq
    exact List.noConfusion heq
  · rename_i e r2 heq
    injection heq with hc hr
    exact absurd hc h2
  · rename_i c2 r2 hne heq
    cases heq
    rw [if_neg h1, if_neg h2]

theorem scanString_escChar (c : Char) (rest : List Char) :
    scanString (escChar c ++ rest)
      = match scanString rest with
        | none => none
        | some (s, r) => some (c :: s, r) := by
  by_cases h1 : c = '"'
  · subst h1
    rfl
  · by_cases h2 : c = '\\'
    · subst h2
      rfl
    · have he : escChar c ++ rest = c :: rest := by simp [escChar, h1, h2]
      rw [he]
      exact scanString_pass rest h1 h2

theorem scanString_render (s : List Char) (rest : List Char) :
    scanString (s.flatMap escChar ++ '"' :: rest) = some (s, rest) := by
  induction s with
  | nil => rfl
  | cons c t ih =>
    rw [List.flatMap_cons, List.append_assoc, scanString_escChar, ih]

/-! ## Scalar-value round-trip through the value parser -/

theorem skipWs_quote (cs : List Char) : skipWs ('"' :: cs) = '"' :: cs := rfl

theorem skipWs_colon (cs : List Char) : skipWs (':' :: cs) = ':' :: cs := rfl

theorem skipWs_comma (cs : List Char) : skipWs (',' :: cs) = ',' :: cs := rfl

theorem skipWs_rbrace (cs : List Char) : skipWs ('\x7d' :: cs) = '\x7d' :: cs := rfl

theorem parseVal_render_str (f : Nat) (s : String) (rest : List Char) :
    parseVal (f + 1) (renderStringL s ++ rest) = some (.str s, rest) := by
  have he : renderStringL s ++ rest = '"' :: (s.data.flatMap escChar ++ '"' :: rest) := by
    simp [renderStringL]
  rw [he]
  show (match scanString (s.data.flatMap escChar ++ '"' :: rest) with
        | some (cs, r2) => some (JsonValue.str (String.mk cs), r2)
        | none => none) = some (.str s, rest)
  rw [scanString_render]

theorem parseVal_other (f : Nat) (c : Char) (r : List Char)
    (hws : isWsChar c = false)
    (hn : ¬c = 'n') (ht : ¬c = 't') (hf : ¬c = 'f') (hq : ¬c = '"')
    (hb : ¬c = '[') (ho : ¬c = '\x7b') :
    parseVal (f + 1) (c :: r)
      = match parseNumber (c :: r) with
        | some (d, r2) => some (JsonValue.num d, r2)
        | none => none := by
  rw [parseVal.eq_def]
  simp only [skipWs_not_ws _ hws]
  rw [if_neg hn, if_neg ht, if_neg hf, if_neg hq, if_neg hb, if_neg ho]

theorem digit_head_facts {c : Char} (h : isDigitCh c = true) :
    ¬c = 'n' ∧ ¬c = 't' ∧ ¬c = 'f' ∧ ¬c = '"' ∧ ¬c = '[' ∧ ¬c = '\x7b' := by
  refine ⟨?_, ?_, ?_, ?_, ?_, ?_⟩ <;> (rintro rfl; revert h; decide)

theorem parseVal_render_num (f : Nat) (d : Decimal) (rest : List Char)
    (hrest : numBreak rest = true) :
    parseVal (f + 1) (renderDecimal d ++ rest) = some (.num d, rest) := by
  obtain ⟨m, sc⟩ := d
  by_cases hm : m < 0
  · have hr : renderDecimal ⟨m, sc⟩ ++ rest = '-' :: (decBody m.natAbs sc ++ rest) := by
      simp [renderDecimal, hm]
    rw [hr, parseVal_other f _ _ (by decide) (by decide) (by decide) (by decide) (by decide)
      (by decide) (by decide), ← hr, parseNumber_render ⟨m, sc⟩ rest hrest]
  · obtain ⟨c, t, hct, hcd⟩ := decBody_head m.natAbs sc
    obtain ⟨h1, h2, h3, h4, h5, h6⟩ := digit_head_facts hcd
    have hr : renderDecimal ⟨m, sc⟩ ++ rest = c :: (t ++ rest) := by
      simp [renderDecimal, hm, hct]
    rw [hr, parseVal_other f _ _ (digit_not_ws hcd) h1 h2 h3 h4 h5 h6, ← hr,
      parseNumber_render ⟨m, sc⟩ rest hrest]

/-- Values that appear in the orchestrator metadata object: strings and
numbers. -/
def ScalarV : JsonValue → Prop
  | .str _ => True
  | .num _ => True
  | _ => False

theorem renderJsonL_str (s : String) : renderJsonL (.str s) = renderStringL s := by
  rw [renderJsonL]

theorem renderJsonL_num (d : Decimal) : renderJsonL (.num d) = renderDecimal d := by
  rw [renderJsonL]

theorem parseVal_render_scalar (g : Nat) (v : JsonValue) (hv : ScalarV v)
    (rest : List Char) (hrest : numBreak rest = true) :
    parseVal (g + 1) (renderJsonL v ++ rest) = some (v, rest) := by
  cases v with
  | str s => rw [renderJsonL_str]; exact parseVal_render_str g s rest
  | num d => rw [renderJsonL_num]; exact parseVal_render_num g d rest hrest
  | null => exact absurd hv (by simp [ScalarV])
  | bool b => exact absurd hv (by simp [ScalarV])
  | arr items => exact absurd hv (by simp [ScalarV])
  | obj members => exact absurd hv (by simp [ScalarV])

/-! ## Flat-object round-trip through the member parser -/

theorem parseFields_render (ms : List (String × JsonValue)) (f : Nat) (rest : List Char)
    (hms : ms ≠ []) (hsc : ∀ kv ∈ ms, ScalarV kv.2) :
    parseFields (ms.length + f + 1) (renderFieldsL ms ++ '\x7d' :: rest)
      = some (ms, rest) := by
  induction ms generalizing f with
  | nil => exact absurd rfl hms
  | cons kv ms2 ih =>
    obtain ⟨k, v⟩ := kv
    have hv : ScalarV v := hsc (k, v) (by simp)
    by_cases hms2 : ms2 = []
    · subst hms2
      have hinput : renderFieldsL [(k, v)] ++ '\x7d' :: rest
          = '"' :: (k.data.flatMap escChar ++ '"' ::
              (':' :: (renderJsonL v ++ '\x7d' :: rest))) := by
        simp [renderFieldsL, renderFieldsTailL, renderStringL]
      rw [hinput]
      simp only [List.length_cons, List.length_nil]
      simp only [parseFields]
      rw [skipWs_quote]
      simp only []
      rw [scanString_render]
      simp only []
      rw [skipWs_colon]
      simp only []
      have hfuel : (0 : Nat) + 1 + f = f + 1 := by omega
      rw [hfuel, parseVal_render_scalar f v hv ('\x7d' :: rest) rfl]
      simp only []
      rw [skipWs_rbrace]
      rfl
    · obtain ⟨kv2, ms3, rfl⟩ := List.exists_cons_of_ne_nil hms2
      obtain ⟨k2, v2⟩ := kv2
      have hinput : renderFieldsL ((k, v) :: (k2, v2) :: ms3) ++ '\x7d' :: rest
          = '"' :: (k.data.flatMap escChar ++ '"' ::
              (':' :: (renderJsonL v
                ++ ',' :: (renderFieldsL ((k2, v2) :: ms3) ++ '\x7d' :: rest)))) := by
        simp [renderFieldsL, renderFieldsTailL, renderStringL]
      rw [hinput]
      simp only [List.length_cons]
      simp only [parseFields]
      rw [skipWs_quote]
      simp only []
      rw [scanString_render]
      simp only []
      rw [skipWs_colon]
      simp only []
      have hfuel : ms3.length + 1 + 1 + f = (ms3.length + 1 + f) + 1 := by omega
      rw [hfuel, parseVal_render_scalar (ms3.length + 1 + f) v hv
        (',' :: (renderFieldsL ((k2, v2) :: ms3) ++ '\x7d' :: rest)) rfl]
      simp only []
      rw [skipWs_comma]
      simp only []
      have hfuel2 : ms3.length + 1 + f = ((k2, v2) :: ms3).length + f := by simp
      rw [hfuel2, ih f hms2 (fun x hx => hsc x (by simp [hx]))]

theorem skipWs_lbrace (cs : List Char) : skipWs ('\x7b' :: cs) = '\x7b' :: cs := rfl

theorem renderJsonL_obj (ms : List (String × JsonValue)) :
    renderJsonL (.obj ms) = '\x7b' :: (renderFieldsL ms ++ ['\x7d']) := by
  rw [renderJsonL]

theorem renderFieldsL_cons_shape (k : String) (v : JsonValue)
    (ms : List (String × JsonValue)) :
    renderFieldsL ((k, v) :: ms)
      = '"' :: (k.data.flatMap escChar ++ '"' :: (':' :: (renderJsonL v ++ renderFieldsTailL ms))) := by
  simp [renderFieldsL, renderStringL]

theorem parseVal_render_obj (f : Nat) (ms : List (String × JsonValue)) (rest : List Char)
    (hms : ms ≠ []) (hsc : ∀ kv ∈ ms, ScalarV kv.2) :
    parseVal ((ms.length + f + 1) + 1) (renderJsonL (.obj ms) ++ rest)
      = some (.obj ms, rest) := by
  obtain ⟨⟨k, v⟩, ms2, rfl⟩ := List.exists_cons_of_ne_nil hms
  have hr : renderJsonL (.obj ((k, v) :: ms2)) ++ rest
      = '\x7b' :: (renderFieldsL ((k, v) :: ms2) ++ '\x7d' :: rest) := by
    rw [renderJsonL_obj]
    simp
  rw [hr, parseVal.eq_def]
  simp only [skipWs_lbrace]
  rw [if_neg (by decide), if_neg (by decide), if_neg (by decide), if_neg (by decide),
    if_neg (by decide), if_pos True.intro]
  rw [renderFieldsL_cons_shape, List.cons_append, skipWs_quote]
  split
  · rename_i r2 heq
    injection heq with h1 h2
    exact absurd h1 (by decide)
  · rename_i r1 heq
    have hpf := parseFields_render ((k, v) :: ms2) f rest (by simp) hsc
    rw [renderFieldsL_cons_shape] at hpf
    simp only [List.cons_append, List.append_assoc] at hpf ⊢
    rw [hpf]

theorem renderFields_length (ms : List (String × JsonValue)) :
    ms.length ≤ (renderFieldsL ms).length ∧ ms.length ≤ (renderFieldsTailL ms).length := by
  induction ms with
  | nil => simp [renderFieldsL, renderFieldsTailL]
  | cons kv ms2 ih =>
    obtain ⟨k, v⟩ := kv
    have h1 : renderFieldsL ((k, v) :: ms2)
        = renderStringL k ++ ':' :: (renderJsonL v ++ renderFieldsTailL ms2) := by
      simp [renderFieldsL]
    have h2 : renderFieldsTailL ((k, v) :: ms2)
        = ',' :: (renderStringL k ++ ':' :: (renderJsonL v ++ renderFieldsTailL ms2)) := by
      simp [renderFieldsTailL]
    constructor
    · rw [h1]
      simp only [List.length_append, List.length_cons]
      have := ih.2
      omega
    · rw [h2]
      simp only [List.length_cons, List.length_append]
      have := ih.2
      omega

theorem jsonParse_render_obj (ms : List (String × JsonValue))
    (hms : ms ≠ []) (hsc : ∀ kv ∈ ms, ScalarV kv.2) :
    jsonParse (renderJson (.obj ms)) = some (.obj ms) := by
  have hlenL : ms.length + 2 ≤ (renderJsonL (.obj ms)).length := by
    rw [renderJsonL_obj]
    simp only [List.length_cons, List.length_append, List.length_singleton]
    have := (renderFields_length ms).1
    omega
  have hdata : (renderJson (.obj ms)).data = renderJsonL (.obj ms) := rfl
  have hlen0 : (renderJson (.obj ms)).length = (renderJsonL (.obj ms)).length := rfl
  obtain ⟨n, hn⟩ : ∃ n, (renderJsonL (.obj ms)).length = n := ⟨_, rfl⟩
  rw [hn] at hlenL
  have hlen : (renderJson (.obj ms)).length = n := hlen0.trans hn
  unfold jsonParse
  rw [hdata, hlen]
  obtain ⟨f, hf⟩ := Nat.le.dest hlenL
  have hfuel : n + 1 = (ms.length + (f + 1) + 1) + 1 := by omega
  rw [hfuel,
    show renderJsonL (.obj ms) = renderJsonL (.obj ms) ++ [] from by simp,
    parseVal_render_obj (f + 1) ms [] hms hsc]
  rfl


/-! ## Shared helper lemmas about the embedded services -/

theorem llmErrorText_ne_empty (e : LLMError) : ¬llmErrorText e = "" := by
  cases e with
  | httpStatusError status =>
    intro h
    have hlen := congrArg String.length h
    simp only [llmErrorText] at hlen
    rw [String.length_append] at hlen
    have h1 : (0 : Nat) < "HTTP status error ".length := by decide
    have h2 : "".length = 0 := rfl
    omega
  | connectError => decide
  | jsonDecodeError => decide
  | notInitialized => decide

theorem chunkLines_length (idx : Nat) (cs : List RetrievedChunk) :
    (chunkLines idx cs).length = cs.length := by
  induction cs generalizing idx with
  | nil => rfl
  | cons c t ih => simp [chunkLines, ih]

theorem chunkLines_get? (cs : List RetrievedChunk) :
    ∀ (idx i : Nat), (chunkLines idx cs).get? i = (cs.get? i).map (chunkLine (idx + i)) := by
  induction cs with
  | nil => intro idx i; cases i <;> rfl
  | cons c t ih =>
    intro idx i
    cases i with
    | zero => rfl
    | succ j =>
      have := ih (idx + 1) j
      simp only [chunkLines, List.get?_cons_succ, this]
      have harith : idx + 1 + j = idx + (j + 1) := by omega
      rw [harith]

/-! ## C1 -/

/-- C1: the spec states that a non-transient failure — an HTTP 4xx status or
a malformed response body — is surfaced immediately and never retried. The
retry predicate on `LLMService.generate`,
`retry_if_exception_type((httpx.HTTPStatusError, httpx.ConnectError))`,
matches every `HTTPStatusError`, including the one `raise_for_status`
raises for a 400 response, contradicting both the spec and the function
docstring ("Retries on transient HTTP / connection errors"): a backend that
answers 400 on each attempt is called 3 times before the error surfaces.
A malformed 200 body (`orjson.JSONDecodeError`) is, as claimed, not
retried. -/
theorem c1_http_4xx_is_retried :
    (llmGenerate {} true (some "m") (fun _ => .httpResponse 400 none)).attempts = 3
    ∧ (llmGenerate {} true (some "m") (fun _ => .httpResponse 400 none)).result
        = .error (.httpStatusError 400)
    ∧ (llmGenerate {} true (some "m") (fun _ => .httpResponse 200 none)).attempts = 1
    ∧ (llmGenerate {} true (some "m") (fun _ => .httpResponse 200 none)).result
        = .error .jsonDecodeError :=
  ⟨rfl, rfl, rfl, rfl⟩

/-! ## C3 -/

/-- C3 counterexample: parsing a response body with every key absent, for a
request whose resolved model is `"m1"`, yields `model = "m1"`, not the
empty string the claim requires. -/
theorem c3_missing_model_not_empty :
    (parseLLMResult {} "m1").model = "m1" ∧ ¬(parseLLMResult {} "m1").model = "" :=
  ⟨rfl, by decide⟩

/-- C3 amended: a missing `response` defaults to `""` and the missing
numeric fields default to `0`, as claimed; a missing `model`, however,
defaults to the resolved model of the request (`data.get("model", _model)`),
not to the empty string. -/
theorem c3_missing_field_defaults (data : OllamaResponse) (requestModel : String) :
    (parseLLMResult data requestModel).text
        = (match data.response with | some t => t | none => "")
    ∧ (parseLLMResult data requestModel).model
        = (match data.model with | some m => m | none => requestModel)
    ∧ (parseLLMResult data requestModel).total_duration_ns
        = (match data.total_duration with | some n => n | none => 0)
    ∧ (parseLLMResult data requestModel).prompt_eval_count
        = (match data.prompt_eval_count with | some n => n | none => 0)
    ∧ (parseLLMResult data requestModel).eval_count
        = (match data.eval_count with | some n => n | none => 0) := by
  obtain ⟨r, m, td, pe, ec⟩ := data
  refine ⟨?_, ?_, ?_, ?_, ?_⟩
  · cases r <;> rfl
  · cases m <;> rfl
  · cases td <;> rfl
  · cases pe <;> rfl
  · cases ec <;> rfl

/-! ## C4 -/

/-- C4: through the transport coercion (`x or None` in
`rest_api.py`) and orchestrator step 1, each override resolves to the
request value when set and to the configured default otherwise, a zero
(or empty) override meaning "use default". -/
theorem c4_overrides_resolve (b : RestGenerateRequest) (s : Settings) :
    resolveModelName (restToOrchRequest b).model_name s
        = (if b.agent_settings.model_name = "" then s.ollama_model
           else b.agent_settings.model_name)
    ∧ resolveTemperature (restToOrchRequest b).temperature s
        = (if b.agent_settings.temperature.mant = 0 then s.default_temperature
           else b.agent_settings.temperature)
    ∧ resolveMaxTokens (restToOrchRequest b).max_tokens s
        = (if b.agent_settings.max_tokens = 0 then s.default_max_tokens
           else b.agent_settings.max_tokens) := by
  refine ⟨?_, ?_, ?_⟩
  · by_cases h : b.agent_settings.model_name = "" <;>
      simp [restToOrchRequest, orNoneStr, resolveModelName, h]
  · by_cases h : b.agent_settings.temperature.mant = 0 <;>
      simp [restToOrchRequest, orNoneDec, resolveTemperature, Decimal.isZero, h]
  · by_cases h : b.agent_settings.max_tokens = 0 <;>
      simp [restToOrchRequest, orNoneNat, resolveMaxTokens, h]

/-! ## C5 -/

/-- C5 counterexample: the backend text `"3"` is valid JSON, so
`generate_structured` returns `json.loads("3") = 3` — a number, not a
mapping — refuting "the caller always receives a well-formed mapping". -/
theorem c5_valid_json_number_is_not_mapping :
    generate_structured_of "3" = .num ⟨3, 0⟩
    ∧ (generate_structured_of "3").isMapping = false :=
  ⟨rfl, rfl⟩

/-- C5 amended: when the text is not valid JSON, `generate_structured`
returns the `{"text": raw}` wrapper without raising; when the text is valid
JSON it returns the parsed value as-is, so the caller receives a mapping
exactly when parsing failed or the JSON document is an object. -/
theorem c5_structured_soft_fallback (text : String) :
    (jsonParse text = none →
      generate_structured_of text = .obj [("text", .str text)])
    ∧ (∀ v, jsonParse text = some v → generate_structured_of text = v)
    ∧ ((generate_structured_of text).isMapping = true
        ↔ jsonParse text = none ∨ ∃ ms, jsonParse text = some (.obj ms)) := by
  refine ⟨?_, ?_, ?_⟩
  · intro h
    simp [generate_structured_of, h]
  · intro v h
    simp [generate_structured_of, h]
  · cases h : jsonParse text with
    | none => simp [generate_structured_of, h, JsonValue.isMapping]
    | some v => cases v <;> simp [generate_structured_of, h, JsonValue.isMapping]

/-- C5 witness: the amended theorem applied at the invalid document
`"hello"` and at the object document. -/
theorem c5_structured_witness :
    generate_structured_of "hello" = .obj [("text", .str "hello")]
    ∧ generate_structured_of "\x7b\"a\":1\x7d" = .obj [("a", .num ⟨1, 0⟩)] :=
  ⟨(c5_structured_soft_fallback "hello").1 rfl,
   (c5_structured_soft_fallback "\x7b\"a\":1\x7d").2.1 (.obj [("a", .num ⟨1, 0⟩)]) rfl⟩

/-! ## C2 -/

/-- C2 counterexample: retrieval runs before `track_generation` is entered
(`orchestrator.py` lines 88–91 versus 102), so an invocation whose
retriever raises emits zero telemetry records, not the exactly-one the
claim requires. -/
theorem c2_retrieval_failure_emits_no_record :
    (agentGenerate {} { user_message := "Hi" }
      ⟨.error "retriever down", .ok ⟨"x", "m", 0, 0, 0, {}⟩, true⟩).emittedRecords.length = 0
    ∧ (agentGenerate {} { user_message := "Hi" }
        ⟨.error "retriever down", .ok ⟨"x", "m", 0, 0, 0, {}⟩, true⟩).result
        = .error (.retrievalFailure "retriever down") :=
  ⟨rfl, rfl⟩

/-- C2 amended: an invocation that reaches the LLM step (its retrieval
succeeded) emits exactly one telemetry record, with status tag `"success"`
on normal return and `"error"` when the LLM call raised; an invocation
whose retrieval fails emits no record and propagates the retrieval error
unchanged. -/
theorem c2_exactly_one_record_after_retrieval (s : Settings) (req : OrchRequest)
    (env : OrchEnv) :
    (agentGenerate s req env).emittedRecords.length
        = (match env.retrieval with | .error _ => 0 | .ok _ => 1)
    ∧ (agentGenerate s req env).emittedRecords.map (fun rec => rec.status)
        = (match env.retrieval, env.llm with
           | .error _, _ => []
           | .ok _, .ok _ => ["success"]
           | .ok _, .error _ => ["error"])
    ∧ (match env.retrieval with
       | .error msg => (agentGenerate s req env).result = .error (.retrievalFailure msg)
       | .ok _ => True) := by
  obtain ⟨retr, llm, p⟩ := env
  cases retr with
  | error msg => exact ⟨rfl, rfl, rfl⟩
  | ok chunks =>
    cases llm with
    | ok r => exact ⟨rfl, rfl, trivial⟩
    | error e =>
      refine ⟨rfl, ?_, trivial⟩
      have hne : (llmErrorText e == "") = false :=
        beq_eq_false_iff_ne.mpr (llmErrorText_ne_empty e)
      simp [agentGenerate, track_generation, hne]

/-! ## C7 -/

/-- C7: on every exit of the wrapped body, `track_generation` re-raises the
body failure unchanged, emits one record carrying the output the body had
set in the bag (possibly empty) and the error text, tags the status by the
outcome, and persists the record exactly when the tracking backend accepts
it — a persistence failure is discarded and changes neither the emitted
record nor the re-raised outcome. -/
theorem c7_track_generation_never_masks (model_name : String) (temperature : Decimal)
    (max_tokens : Nat) (user_message system_prompt full_prompt : String)
    (body : TrackBody) (persistOk : Bool) :
    (track_generation model_name temperature max_tokens user_message system_prompt
        full_prompt body persistOk).reraised = body.failure
    ∧ (track_generation model_name temperature max_tokens user_message system_prompt
        full_prompt body persistOk).emitted.output = body.output
    ∧ (track_generation model_name temperature max_tokens user_message system_prompt
        full_prompt body persistOk).emitted.error = body.failure.map llmErrorText
    ∧ (track_generation model_name temperature max_tokens user_message system_prompt
        full_prompt body persistOk).emitted.status
        = (match body.failure with | some _ => "error" | none => "success")
    ∧ (track_generation model_name temperature max_tokens user_message system_prompt
        full_prompt body persistOk).persisted
        = (if persistOk then
            [(track_generation model_name temperature max_tokens user_message
              system_prompt full_prompt body persistOk).emitted]
           else [])
    ∧ (track_generation model_name temperature max_tokens user_message system_prompt
        full_prompt body true).emitted
        = (track_generation model_name temperature max_tokens user_message system_prompt
            full_prompt body false).emitted
    ∧ (track_generation model_name temperature max_tokens user_message system_prompt
        full_prompt body true).reraised
        = (track_generation model_name temperature max_tokens user_message system_prompt
            full_prompt body false).reraised := by
  obtain ⟨out, fail⟩ := body
  cases fail with
  | none => exact ⟨rfl, rfl, rfl, rfl, rfl, rfl, rfl⟩
  | some e =>
    have hne : (llmErrorText e == "") = false :=
      beq_eq_false_iff_ne.mpr (llmErrorText_ne_empty e)
    refine ⟨rfl, rfl, ?_, ?_, rfl, rfl, rfl⟩
    · simp [track_generation, hne]
    · simp [track_generation, hne]

/-! ## C6 -/

/-- C6 counterexample: with `llm_max_retries` configured to 2, a backend
that refuses every connection is still attempted 3 times — the decorator
hard-codes `stop_after_attempt(3)` and never reads the setting, so the
claimed "up to the configured attempt limit" fails once the limit differs
from 3. -/
theorem c6_configured_limit_ignored :
    ({ llm_max_retries := 2 } : Settings).llm_max_retries = 2
    ∧ (llmGenerate { llm_max_retries := 2 } true none
        (fun _ => .connectFailure)).attempts = 3 :=
  ⟨rfl, rfl⟩

/-- C6 amended: on persistent transient failures `generate` makes exactly
3 total attempts (the limit is hard-coded; `llm_max_retries`, default 3, is
not consulted), sleeping the exponential backoff waits 1s then 2s — the
wait sequence starts at 1 second and every wait is capped at 10 seconds —
and after exhaustion re-raises the last failure unchanged, so the caller
sees the same error as on attempt 1. -/
theorem c6_retry_exhaustion (s : Settings) (modelOverride : Option String)
    (e : LLMError) (backend : Nat → BackendResponse)
    (hretry : isRetryableError e = true)
    (hfail : ∀ n, generateAttempt (resolveModelName modelOverride s) (backend n) = .error e) :
    (llmGenerate s true modelOverride backend).result = .error e
    ∧ (llmGenerate s true modelOverride backend).attempts = 3
    ∧ (llmGenerate s true modelOverride backend).waits = [backoffWait 1, backoffWait 2]
    ∧ (llmGenerate s true modelOverride backend).waits = [1, 2]
    ∧ backoffWait 1 = 1
    ∧ (∀ n, 1 ≤ backoffWait n ∧ backoffWait n ≤ 10) := by
  have h2 : retryLoop (fun n => generateAttempt (resolveModelName modelOverride s) (backend n)) 3 0
      = ⟨.error e, 1, []⟩ := by
    rw [retryLoop, hfail 3]
  have h1 : retryLoop (fun n => generateAttempt (resolveModelName modelOverride s) (backend n)) 2 1
      = ⟨.error e, 2, [backoffWait 2]⟩ := by
    rw [retryLoop, hfail 2]
    simp [hretry, h2]
  have h0 : retryLoop (fun n => generateAttempt (resolveModelName modelOverride s) (backend n)) 1 2
      = ⟨.error e, 3, [backoffWait 1, backoffWait 2]⟩ := by
    rw [retryLoop, hfail 1]
    simp [hretry, h1]
  have hgen : llmGenerate s true modelOverride backend
      = ⟨.error e, 3, [backoffWait 1, backoffWait 2]⟩ := by
    simp [llmGenerate, h0]
  refine ⟨by rw [hgen], by rw [hgen], by rw [hgen], by rw [hgen]; rfl, rfl, ?_⟩
  intro n
  unfold backoffWait
  omega

/-- C6 witness: the amended theorem applied to a connection-refusing
backend under a configuration whose retry limit is 5 — the trace still
shows 3 attempts, waits of 1s and 2s, and the original connection error. -/
theorem c6_retry_exhaustion_witness :
    (llmGenerate { llm_max_retries := 5 } true none (fun _ => .connectFailure)).result
        = .error .connectError
    ∧ (llmGenerate { llm_max_retries := 5 } true none (fun _ => .connectFailure)).attempts = 3
    ∧ (llmGenerate { llm_max_retries := 5 } true none (fun _ => .connectFailure)).waits
        = [1, 2] := by
  have h := c6_retry_exhaustion { llm_max_retries := 5 } none .connectError
    (fun _ => .connectFailure) rfl (fun n => rfl)
  exact ⟨h.1, h.2.1, h.2.2.2.1⟩

/-! ## C8 -/

/-- C8: `build_prompt` joins, with exactly one blank line, the sections of
`promptSectionsSpec` — `[System]`, `[Context]`, the raw RAG block and
`[User]`, in that fixed order, each optional section present exactly when
its source string is non-empty — and the mandatory `[User]` block is always
the final section, so nothing is reordered, truncated or escaped. -/
theorem c8_prompt_section_order (sp cj rc um : String) :
    build_prompt sp cj rc um = String.intercalate "\n\n" (promptSectionsSpec sp cj rc um)
    ∧ (promptSectionsSpec sp cj rc um).getLast? = some ("[User]\n" ++ um)
    ∧ promptSectionsSpec sp cj rc um ≠ [] := by
  have hsplit : promptSectionsSpec sp cj rc um
      = ((if sp = "" then [] else ["[System]\n" ++ sp])
          ++ (if cj = "" then [] else ["[Context]\n" ++ cj])
          ++ (if rc = "" then [] else [rc])) ++ ["[User]\n" ++ um] := by
    simp [promptSectionsSpec, List.append_assoc]
  refine ⟨?_, ?_, ?_⟩
  · by_cases h1 : sp = "" <;> by_cases h2 : cj = "" <;> by_cases h3 : rc = "" <;>
      simp [build_prompt, promptSectionsSpec, h1, h2, h3]
  · rw [hsplit, List.getLast?_concat]
  · rw [hsplit]
    simp

/-! ## C9 -/

/-- C9: `format_rag_context` is empty for no chunks; otherwise it is the
`### Retrieved Context ###` header, one block per chunk, and the
`### End Context ###` footer, blank-line joined; block `i` (0-based) is
rendered from chunk `i` with the 1-based contiguous label `i + 1` — so the
retrieval-returned order is preserved, never re-sorted — and every score is
printed with a point followed by exactly three fractional digits. -/
theorem c9_rag_context_format (chunks : List RetrievedChunk) :
    format_rag_context [] = ""
    ∧ (chunks ≠ [] →
        format_rag_context chunks
          = String.intercalate "\n\n"
              ("### Retrieved Context ###" :: (chunkLines 1 chunks ++ ["### End Context ###"])))
    ∧ (chunkLines 1 chunks).length = chunks.length
    ∧ (∀ i, (chunkLines 1 chunks).get? i = (chunks.get? i).map (chunkLine (i + 1)))
    ∧ (∀ d : Decimal,
        formatFixed3 d
          = (if d.mant < 0 then "-" else "") ++ toString (scaleTo3 d / 1000) ++ "."
              ++ String.mk (pad3 (scaleTo3 d % 1000))
        ∧ (String.mk (pad3 (scaleTo3 d % 1000))).length = 3) := by
  refine ⟨rfl, ?_, chunkLines_length 1 chunks, ?_, ?_⟩
  · intro h
    have hne : chunks.isEmpty = false := by
      cases chunks with
      | nil => exact absurd rfl h
      | cons c t => rfl
    simp [format_rag_context, hne]
  · intro i
    rw [chunkLines_get? chunks 1 i, Nat.add_comm]
  · intro d
    exact ⟨rfl, rfl⟩

/-- C9 witness: the formatting theorem applied to a single concrete chunk
with score `1.234`. -/
theorem c9_rag_context_format_witness :
    format_rag_context [⟨"alpha", "doc1", ⟨1234, 3⟩, []⟩]
      = "### Retrieved Context ###\n\n[1] (source=doc1, score=1.234)\nalpha\n\n### End Context ###" := by
  have h := (c9_rag_context_format [⟨"alpha", "doc1", ⟨1234, 3⟩, []⟩]).2.1 (by simp)
  rw [h]
  rfl

/-! ## C10 -/

theorem metadataFields_scalar (model : String) (temperature : Decimal)
    (max_tokens eval_count prompt_eval_count total_duration_ns rag_chunks_used : Nat) :
    ∀ kv ∈ metadataFields model temperature max_tokens eval_count prompt_eval_count
      total_duration_ns rag_chunks_used, ScalarV kv.2 := by
  intro kv hkv
  simp [metadataFields] at hkv
  rcases hkv with h | h | h | h | h | h | h <;> subst h <;> trivial

/-- C10: every successful `AgentOrchestrator.generate` call returns the
`text` / `metadata` / `metadata_json` structure where `text` is the LLM
result text, the metadata map holds exactly the seven source-ordered keys
with `rag_chunks_used` equal to the number of chunks the retriever
returned, and parsing the serialized `metadata_json` yields exactly the
metadata map back (serialize-then-parse round-trip). -/
theorem c10_success_response_shape (s : Settings) (req : OrchRequest) (env : OrchEnv)
    (chunks : List RetrievedChunk) (r : LLMResult)
    (hretr : env.retrieval = .ok chunks) (hllm : env.llm = .ok r) :
    ∃ resp : OrchResponse,
      (agentGenerate s req env).result = .ok resp
      ∧ resp.text = r.text
      ∧ resp.metadata = metadataFields r.model (resolveTemperature req.temperature s)
          (resolveMaxTokens req.max_tokens s) r.eval_count r.prompt_eval_count
          r.total_duration_ns chunks.length
      ∧ resp.metadata.map Prod.fst
          = ["model", "temperature", "max_tokens", "eval_count",
             "prompt_eval_count", "total_duration_ns", "rag_chunks_used"]
      ∧ List.lookup "rag_chunks_used" resp.metadata = some (.num ⟨chunks.length, 0⟩)
      ∧ jsonParse resp.metadata_json = some (.obj resp.metadata) := by
  obtain ⟨retr, llm, p⟩ := env
  have hr : retr = .ok chunks := hretr
  have hl : llm = .ok r := hllm
  subst hr
  subst hl
  refine ⟨_, rfl, rfl, rfl, rfl, rfl, ?_⟩
  exact jsonParse_render_obj _ (by simp [metadataFields])
    (metadataFields_scalar r.model (resolveTemperature req.temperature s)
      (resolveMaxTokens req.max_tokens s) r.eval_count r.prompt_eval_count
      r.total_duration_ns chunks.length)

/-- C10 witness: the shape theorem applied to a concrete call — empty
retrieval, a backend result with `eval_count = 3` — yielding the `"Hello!"`
response with `rag_chunks_used = 0` and a round-tripping
`metadata_json`. -/
theorem c10_success_response_shape_witness :
    ∃ resp : OrchResponse,
      (agentGenerate {} { user_message := "Hi" }
        ⟨.ok [], .ok ⟨"Hello!", "m1", 0, 0, 3, {}⟩, true⟩).result = .ok resp
      ∧ resp.text = "Hello!"
      ∧ resp.metadata = metadataFields "m1" ⟨7, 1⟩ 2048 3 0 0 0
      ∧ resp.metadata.map Prod.fst
          = ["model", "temperature", "max_tokens", "eval_count",
             "prompt_eval_count", "total_duration_ns", "rag_chunks_used"]
      ∧ List.lookup "rag_chunks_used" resp.metadata = some (.num ⟨0, 0⟩)
      ∧ jsonParse resp.metadata_json = some (.obj resp.metadata) :=
  c10_success_response_shape {} { user_message := "Hi" }
    ⟨.ok [], .ok ⟨"Hello!", "m1", 0, 0, 3, {}⟩, true⟩ [] ⟨"Hello!", "m1", 0, 0, 3, {}⟩ rfl rfl

end KidioAgent


